import Mathlib

/-!
Verification of the mrml rendering core: the attribute-resolution cascade
(`prelude/render/prelude.rs`), the shared render context `Header`
(`prelude/render/mod.rs`), and the divider component (`mj_divider/render.rs`).

Rust strings are modelled as Lean `String`; the string operations used by the
code (`split`, `trim`, `strip_suffix`, `split_whitespace`) are re-implemented
structurally over `List Char` so that every definition evaluates by kernel
reduction.  Floating-point lengths (`f32`) are modelled as exact rationals;
every numeric literal appearing in the claims is exactly representable.
Hash maps are modelled as association lists (first binding wins, keys unique
in legitimate use), and the insertion-ordered sets/maps of the header as
lists with insert-if-absent.
-/

namespace Mrml

/-- Splits a character list at every occurrence of the separator, keeping
empty pieces, as Rust's `str::split(char)` does.  The accumulator holds the
current piece reversed. -/
def splitSepAux (sep : Char) : List Char → List Char → List (List Char)
  | [], acc => [acc.reverse]
  | c :: rest, acc =>
    if c = sep then acc.reverse :: splitSepAux sep rest []
    else splitSepAux sep rest (c :: acc)

/-- Model of Rust `str::split(sep)` over the character list of a string. -/
def splitSep (sep : Char) (l : List Char) : List (List Char) :=
  splitSepAux sep l []

/-- Model of Rust `str::split_whitespace`: split at whitespace and drop the
empty pieces. -/
def splitWhitespace (l : List Char) : List (List Char) :=
  (splitSepAux ' ' (l.map (fun c => if c.isWhitespace then ' ' else c)) []).filter
    (fun piece => piece ≠ [])

/-- Model of Rust `str::trim`: drop whitespace from both ends. -/
def trimChars (l : List Char) : List Char :=
  ((l.dropWhile Char.isWhitespace).reverse.dropWhile Char.isWhitespace).reverse

/-- Removes the given reversed suffix from a reversed character list. -/
def stripSuffixRevAux : List Char → List Char → Option (List Char)
  | [], lRev => some lRev
  | _ :: _, [] => none
  | s :: ss, c :: cs => if c = s then stripSuffixRevAux ss cs else none

/-- Model of Rust `str::strip_suffix`: the list without the suffix, when the
suffix is present. -/
def stripSuffix (sfx l : List Char) : Option (List Char) :=
  (stripSuffixRevAux sfx.reverse l.reverse).map List.reverse

/-- Numeric value of a list of decimal digit characters, most significant
first. -/
def natOfDigits (l : List Char) : Nat :=
  l.foldl (fun acc c => acc * 10 + (c.toNat - 48)) 0

/-- Parses a decimal literal (optional leading minus, digits, optional
fractional part) into an exact rational, the model of the float parsing used
by the numeric value types.  Anything else is a parse failure. -/
def parseDecimal (l : List Char) : Option ℚ :=
  match l with
  | '-' :: rest => (parseDecimalNonNeg rest).map (fun q => -q)
  | _ => parseDecimalNonNeg l
where
  /-- Parses an unsigned decimal literal. -/
  parseDecimalNonNeg (l : List Char) : Option ℚ :=
    match splitSep '.' l with
    | [ip] =>
      if ip ≠ [] ∧ ip.all Char.isDigit then some (natOfDigits ip) else none
    | [ip, fp] =>
      if (ip ≠ [] ∨ fp ≠ []) ∧ ip.all Char.isDigit ∧ fp.all Char.isDigit then
        some ((natOfDigits ip : ℚ) + (natOfDigits fp : ℚ) / 10 ^ fp.length)
      else none
    | _ => none

/-- Modelled from the spec: `helper/size.rs` is not under `src`.  A pixel
length holding one (floating-point, here exact rational) value. -/
structure Pixel where
  value : ℚ
deriving DecidableEq

/-- Modelled from the spec: a percentage value. -/
structure Percent where
  value : ℚ
deriving DecidableEq

/-- Modelled from the spec: a `Size` is a tagged value — pixel, percent, or
opaque raw string — parsed from a CSS-like literal. -/
inductive Size where
  | pixel (value : Pixel)
  | percent (value : Percent)
  | raw (value : String)
deriving DecidableEq

/-- Modelled from the spec: `Pixel::new`. -/
def Pixel.new (value : ℚ) : Pixel := ⟨value⟩

/-- Modelled from the spec: `Size::percent`. -/
def Size.percentOf (value : ℚ) : Size := .percent ⟨value⟩

/-- Modelled from the spec: `Pixel::try_from(&str)` parses a trimmed literal
with the `px` suffix; anything else is a parse failure (`None` here, `Err`
in the source). -/
def Pixel.tryFrom (s : String) : Option Pixel :=
  (stripSuffix "px".data (trimChars s.data)).bind
    (fun num => (parseDecimal num).map Pixel.mk)

/-- Modelled from the spec: `Size::try_from(&str)` parses a trimmed literal;
suffix `px` selects the pixel variant, suffix `%` the percent variant, and
anything else becomes an opaque raw size (not an error); a malformed number
under a recognized suffix is a parse failure. -/
def Size.tryFrom (s : String) : Option Size :=
  let t := trimChars s.data
  match stripSuffix "px".data t with
  | some num => (parseDecimal num).map (fun v => Size.pixel ⟨v⟩)
  | none =>
    match stripSuffix "%".data t with
    | some num => (parseDecimal num).map (fun v => Size.percent ⟨v⟩)
    | none => some (Size.raw (String.mk t))

/-- Modelled from the spec: `Size::as_pixel`. -/
def Size.asPixel : Size → Option Pixel
  | .pixel p => some p
  | _ => none

/-- Modelled from the spec: `Pixel::from_border` extracts the width from a
CSS `border` shorthand by taking its first whitespace-separated token. -/
def Pixel.fromBorder (s : String) : Option Pixel :=
  (splitWhitespace s.data).head?.bind (fun tok => Pixel.tryFrom (String.mk tok))

/-- Modelled from the spec: `spacing.rs` is not under `src`.  The CSS
shorthand expansion of 1–4 space-separated values into independent
top/right/bottom/left sizes. -/
structure Spacing where
  top : Size
  right : Size
  bottom : Size
  left : Size
deriving DecidableEq

/-- Modelled from the spec: `Spacing::try_from(&str)` splits on whitespace
and applies the 1/2/3/4-value CSS shorthand rule (1 → all sides;
2 → vertical,horizontal; 3 → top,horizontal,bottom; 4 → top,right,bottom,left);
any other token count is a parse failure. -/
def Spacing.tryFrom (s : String) : Option Spacing :=
  match (splitWhitespace s.data).map (fun tok => Size.tryFrom (String.mk tok)) with
  | [some a] => some ⟨a, a, a, a⟩
  | [some v, some h] => some ⟨v, h, v, h⟩
  | [some t, some h, some b] => some ⟨t, h, b, h⟩
  | [some t, some r, some b, some l] => some ⟨t, r, b, l⟩
  | _ => none

/-- Association-list lookup, the model of the hash-map `get` used by the
header tables and the node attribute maps. -/
def lookup (m : List (String × String)) (key : String) : Option String :=
  (m.find? (fun p => decide (p.1 = key))).map Prod.snd

/-- Lookup in a two-level table (class name or element tag, then key). -/
def lookup2 (m : List (String × List (String × String))) (name key : String) :
    Option String :=
  ((m.find? (fun p => decide (p.1 = name))).map Prod.snd).bind
    (fun inner => lookup inner key)

/-- Insert into an insertion-ordered set (`IndexSet::insert`): a no-op when
the element is already present, otherwise appended at the end. -/
def insertSet (l : List String) (x : String) : List String :=
  if x ∈ l then l else l ++ [x]

/-- Insert into an insertion-ordered map (`IndexMap::insert`): replaces the
value in place when the key is present, otherwise appends the binding. -/
def insertMap (l : List (String × Size)) (k : String) (v : Size) :
    List (String × Size) :=
  if (l.find? (fun p => decide (p.1 = k))).isSome then
    l.map (fun p => if p.1 = k then (k, v) else p)
  else l ++ [(k, v)]

/-- The digits of the zero-padded fixed-width decimal rendering of a number,
most significant first: position k from the left holds digit
n / 10 ^ (w - 1 - k) mod 10. -/
def padDigits : Nat → Nat → List Char
  | 0, _ => []
  | w + 1, n => Char.ofNat (48 + n / 10 ^ w % 10) :: padDigits w n

/-- Model of the Rust formatting expression `format!("{id:0>8}")` for
id < 10 ^ 8: the eight-digit zero-padded decimal string.  The generator
value is a `u16`, hence always below 65536 < 10 ^ 8. -/
def zeroPad8 (n : Nat) : String :=
  String.mk (padDigits 8 n)

/-- The render context (`Header` in `prelude/render/mod.rs`): the four
cascade tables and the breakpoint, fixed at construction, plus the mutable
accumulators.  The `head` back-reference is omitted (`MjHead` is outside the
rendered core); the `AtomicU16` id generator is modelled as a natural number
kept below 2 ^ 16. -/
structure Header where
  attributes_all : List (String × String)
  attributes_class : List (String × List (String × String))
  attributes_element : List (String × List (String × String))
  breakpoint : Pixel
  font_families : List (String × String)
  used_font_families : List String
  media_queries : List (String × Size)
  styles : List String
  lang : Option String
  generator : Nat

/-- Model of `Header::new`: the cascade tables are built from the head
section (`build_attributes_*` lives in the out-of-scope `MjHead`, so the
already-built tables are taken as inputs), the breakpoint falls back to
480px when absent or unparseable, and every accumulator starts empty with
the generator at zero. -/
def Header.new (all : List (String × String))
    (cls elt : List (String × List (String × String)))
    (fonts : List (String × String)) (breakpointRaw : Option String) : Header where
  attributes_all := all
  attributes_class := cls
  attributes_element := elt
  breakpoint := (breakpointRaw.bind Pixel.tryFrom).getD (Pixel.new 480)
  font_families := fonts
  used_font_families := []
  media_queries := []
  styles := []
  lang := none
  generator := 0

/-- Model of `Header::attribute_all`. -/
def Header.attribute_all (h : Header) (key : String) : Option String :=
  lookup h.attributes_all key

/-- Model of `Header::attribute_class`. -/
def Header.attribute_class (h : Header) (name key : String) : Option String :=
  lookup2 h.attributes_class name key

/-- Model of `Header::attribute_element`. -/
def Header.attribute_element (h : Header) (name key : String) : Option String :=
  lookup2 h.attributes_element name key

/-- Model of `Header::add_used_font_family`: inserts the name into the
used-font-families set. -/
def Header.add_used_font_family (h : Header) (value : String) : Header :=
  { h with used_font_families := insertSet h.used_font_families value }

/-- The family names produced by `Header::add_font_families` from one input:
split on commas, each token trimmed, empty tokens dropped. -/
def fontFamilyTokens (value : String) : List String :=
  (((splitSep ',' value.data).map trimChars).filter (fun tok => tok ≠ [])).map
    String.mk

/-- Model of `Header::add_font_families`: every comma-separated, trimmed,
non-empty token is added to the used-font-families set. -/
def Header.add_font_families (h : Header) (value : String) : Header :=
  (fontFamilyTokens value).foldl Header.add_used_font_family h

/-- Model of `Header::maybe_add_font_families`: a no-op on `None`. -/
def Header.maybe_add_font_families (h : Header) (value : Option String) : Header :=
  match value with
  | some value => h.add_font_families value
  | none => h

/-- Model of `Header::add_media_query`. -/
def Header.add_media_query (h : Header) (classname : String) (size : Size) : Header :=
  { h with media_queries := insertMap h.media_queries classname size }

/-- Model of `Header::add_style`. -/
def Header.add_style (h : Header) (value : String) : Header :=
  { h with styles := insertSet h.styles value }

/-- Model of `Header::maybe_add_style`: a no-op on `None`. -/
def Header.maybe_add_style (h : Header) (value : Option String) : Header :=
  match value with
  | some value => h.add_style value
  | none => h

/-- Model of `Header::maybe_set_lang`: the field is overwritten with the
argument unconditionally. -/
def Header.maybe_set_lang (h : Header) (value : Option String) : Header :=
  { h with lang := value }

/-- Model of `Header::next_id`: returns the zero-padded current counter
value and the header with the counter bumped; `AtomicU16::fetch_add` wraps
at 2 ^ 16. -/
def Header.next_id (h : Header) : String × Header :=
  (zeroPad8 h.generator, { h with generator := (h.generator + 1) % 65536 })

/-- The strings returned by n successive `next_id` calls starting from the
given header. -/
def idsAfter (h : Header) : Nat → List String
  | 0 => []
  | n + 1 => h.next_id.1 :: idsAfter h.next_id.2 n

/-- The per-node data the `Render` trait exposes to the cascade: the raw
attribute map, the extra (injected) attributes, the element tag name, and
the component's compiled-in defaults.  Each `Option` mirrors the trait
methods returning `Option<&Map>` / `Option<&str>`. -/
structure RenderNode where
  attributes : Option (List (String × String))
  extra_attributes : Option (List (String × String))
  tag : Option String
  default_attribute : String → Option String

namespace Render

/-- Model of `Render::attribute` (`prelude/render/prelude.rs`, lines
131–161): the six-tier cascade with early return at the first tier that
produces a value. -/
def attributeOf (n : RenderNode) (h : Header) (key : String) : Option String :=
  match n.attributes.bind (fun attrs => lookup attrs key) with
  | some value => some value
  | none =>
    match n.extra_attributes.bind (fun attrs => lookup attrs key) with
    | some value => some value
    | none =>
      match (n.attributes.bind (fun attrs => lookup attrs "mj-class")).bind
          (fun mjClasses =>
            (((splitSep ' ' mjClasses.data).map trimChars).filterMap
              (fun mjClass => h.attribute_class (String.mk mjClass) key)).head?) with
      | some value => some value
      | none =>
        match n.tag.bind (fun tag => h.attribute_element tag key) with
        | some value => some value
        | none =>
          match h.attribute_all key with
          | some value => some value
          | none => n.default_attribute key

/-- Model of `Render::attribute_as_pixel`: the resolved string parsed as a
pixel, a parse failure giving `None`. -/
def attribute_as_pixel (n : RenderNode) (h : Header) (name : String) : Option Pixel :=
  (attributeOf n h name).bind (fun value => Pixel.tryFrom value)

/-- Model of `Render::attribute_as_size`. -/
def attribute_as_size (n : RenderNode) (h : Header) (name : String) : Option Size :=
  (attributeOf n h name).bind (fun value => Size.tryFrom value)

/-- Model of `Render::attribute_as_spacing`. -/
def attribute_as_spacing (n : RenderNode) (h : Header) (name : String) : Option Spacing :=
  (attributeOf n h name).bind (fun value => Spacing.tryFrom value)

/-- Model of `Render::get_border_left`. -/
def get_border_left (n : RenderNode) (h : Header) : Option Pixel :=
  (attribute_as_pixel n h "border-left").orElse
    (fun _ => (attributeOf n h "border").bind (fun value => Pixel.fromBorder value))

/-- Model of `Render::get_border_right`. -/
def get_border_right (n : RenderNode) (h : Header) : Option Pixel :=
  (attribute_as_pixel n h "border-right").orElse
    (fun _ => (attributeOf n h "border").bind (fun value => Pixel.fromBorder value))

/-- Model of `Render::get_border_horizontal`: each side contributes zero
when undefined. -/
def get_border_horizontal (n : RenderNode) (h : Header) : Pixel :=
  Pixel.new (((get_border_left n h).map Pixel.value).getD 0 +
    ((get_border_right n h).map Pixel.value).getD 0)

/-- Model of `Render::get_padding_top`. -/
def get_padding_top (n : RenderNode) (h : Header) : Option Pixel :=
  (attribute_as_pixel n h "padding-top").orElse
    (fun _ => (attribute_as_spacing n h "padding").bind (fun s => s.top.asPixel))

/-- Model of `Render::get_padding_bottom`. -/
def get_padding_bottom (n : RenderNode) (h : Header) : Option Pixel :=
  (attribute_as_pixel n h "padding-bottom").orElse
    (fun _ => (attribute_as_spacing n h "padding").bind (fun s => s.bottom.asPixel))

/-- Model of `Render::get_padding_left`. -/
def get_padding_left (n : RenderNode) (h : Header) : Option Pixel :=
  (attribute_as_pixel n h "padding-left").orElse
    (fun _ => (attribute_as_spacing n h "padding").bind (fun s => s.left.asPixel))

/-- Model of `Render::get_padding_right`. -/
def get_padding_right (n : RenderNode) (h : Header) : Option Pixel :=
  (attribute_as_pixel n h "padding-right").orElse
    (fun _ => (attribute_as_spacing n h "padding").bind (fun s => s.right.asPixel))

/-- Model of `Render::get_padding_horizontal`. -/
def get_padding_horizontal (n : RenderNode) (h : Header) : Pixel :=
  Pixel.new (((get_padding_left n h).map Pixel.value).getD 0 +
    ((get_padding_right n h).map Pixel.value).getD 0)

/-- Model of `Render::get_padding_vertical`. -/
def get_padding_vertical (n : RenderNode) (h : Header) : Pixel :=
  Pixel.new (((get_padding_top n h).map Pixel.value).getD 0 +
    ((get_padding_bottom n h).map Pixel.value).getD 0)

/-- Model of `Render::get_width`. -/
def get_width (n : RenderNode) (h : Header) : Option Size :=
  attribute_as_size n h "width"

end Render

/-- The claim-side description of tier 1 of the cascade: the node's own
attribute map. -/
def tierOwn (n : RenderNode) (key : String) : Option String :=
  n.attributes.bind (fun attrs => lookup attrs key)

/-- The claim-side description of tier 2: the node's extra attributes. -/
def tierExtra (n : RenderNode) (key : String) : Option String :=
  n.extra_attributes.bind (fun attrs => lookup attrs key)

/-- The claim-side description of tier 3: the first match, in declared
order, among the space-separated class names of the node's mj-class
attribute, looked up in the per-class table. -/
def tierClass (n : RenderNode) (h : Header) (key : String) : Option String :=
  (n.attributes.bind (fun attrs => lookup attrs "mj-class")).bind
    (fun mjClasses =>
      (((splitSep ' ' mjClasses.data).map trimChars).filterMap
        (fun mjClass => h.attribute_class (String.mk mjClass) key)).head?)

/-- The claim-side description of tier 4: the per-element table keyed by the
node's tag name. -/
def tierElement (n : RenderNode) (h : Header) (key : String) : Option String :=
  n.tag.bind (fun tag => h.attribute_element tag key)

/-- The claim-side description of tier 5: the global table. -/
def tierAll (h : Header) (key : String) : Option String :=
  h.attribute_all key

/-- The claim-side description of tier 6: the component's compiled-in
default. -/
def tierDefault (n : RenderNode) (key : String) : Option String :=
  n.default_attribute key

/-- Model of `RenderOptions` (`prelude/render/mod.rs`): comment suppression,
social-icon origin, and the font-family→URL table. -/
structure RenderOptions where
  disable_comments : Bool
  social_icon_origin : Option String
  fonts : List (String × String)

/-- Model of `RenderOptions::default`: comments enabled, no social-icon
origin, and the five builtin font-family entries. -/
def RenderOptions.default : RenderOptions where
  disable_comments := false
  social_icon_origin := none
  fonts :=
    [("Open Sans", "https://fonts.googleapis.com/css?family=Open+Sans:300,400,500,700"),
     ("Droid Sans", "https://fonts.googleapis.com/css?family=Droid+Sans:300,400,500,700"),
     ("Lato", "https://fonts.googleapis.com/css?family=Lato:300,400,500,700"),
     ("Roboto", "https://fonts.googleapis.com/css?family=Roboto:300,400,500,700"),
     ("Ubuntu", "https://fonts.googleapis.com/css?family=Ubuntu:300,400,500,700")]

/-- Modelled from the spec: the render error type (`error.rs` is not under
`src`); `prelude.rs` uses its unknown-fragment case, which carries the
requested fragment name. -/
inductive Error where
  | unknownFragment (name : String)
deriving DecidableEq

/-- Model of `Render::render_fragment`: the name main dispatches to the full
render, anything else is an unknown-fragment error carrying the name.  The
component's own render method is taken as a function argument, as the trait
leaves it abstract. -/
def render_fragment (render : RenderOptions → Except Error String)
    (name : String) (opts : RenderOptions) : Except Error String :=
  if name = "main" then render opts
  else Except.error (Error.unknownFragment name)

/-- Modelled from the spec: the markup builder `Tag` (`helper/tag.rs` is not
under `src`): a tag name with ordered attribute and style lists. -/
structure Tag where
  name : String
  attributes : List (String × String)
  styles : List (String × String)

/-- Modelled from the spec: `Tag::new`. -/
def Tag.new (name : String) : Tag := ⟨name, [], []⟩

/-- Modelled from the spec: `Tag::add_attribute` appends in call order. -/
def Tag.add_attribute (t : Tag) (k v : String) : Tag :=
  { t with attributes := t.attributes ++ [(k, v)] }

/-- Modelled from the spec: `Tag::add_style` appends in call order. -/
def Tag.add_style (t : Tag) (k v : String) : Tag :=
  { t with styles := t.styles ++ [(k, v)] }

/-- Modelled from the spec: `Tag::maybe_add_style` is a no-op on `None`. -/
def Tag.maybe_add_style (t : Tag) (k : String) (v : Option String) : Tag :=
  match v with
  | some v => t.add_style k v
  | none => t

/-- Serializes a (attribute or style) pair list. -/
def pairsToString (sep : String) (l : List (String × String)) : String :=
  String.join (l.map (fun p => p.1 ++ sep ++ p.2))

/-- Modelled from the spec: the serialized open tag, attributes then the
single style attribute, in insertion order. -/
def Tag.render_open (t : Tag) : String :=
  "<" ++ t.name ++ pairsToString "=" t.attributes ++
    (if t.styles = [] then "" else " style=" ++ pairsToString ":" t.styles) ++ ">"

/-- Modelled from the spec: the serialized close tag. -/
def Tag.render_close (t : Tag) : String :=
  "</" ++ t.name ++ ">"

/-- Modelled from the spec: `Tag::render_text` emits open tag, literal text
and close tag. -/
def Tag.render_text (t : Tag) (text : String) : String :=
  t.render_open ++ text ++ t.render_close

/-- Modelled from the spec: the vendor conditional-comment opener emitted by
`start_conditional_tag`. -/
def startConditionalTag : String := "<!--[if mso | IE]>"

/-- Modelled from the spec: the matching closer emitted by
`end_conditional_tag`. -/
def endConditionalTag : String := "<![endif]-->"

/-- Modelled from the spec: the presentation table used for the vendor
fallback block. -/
def Tag.table_presentation : Tag :=
  ((((Tag.new "table").add_attribute "border" "0").add_attribute "cellpadding"
    "0").add_attribute "cellspacing" "0").add_attribute "role" "presentation"

/-- Display of a pixel value, the model of its `Display` writing the numeric
value followed by px. -/
def Pixel.display (p : Pixel) : String :=
  toString p.value ++ "px"

/-- Model of the divider's compiled-in defaults
(`mj_divider/render.rs::default_attribute`). -/
def dividerDefaultAttribute : String → Option String
  | "align" => some "center"
  | "border-color" => some "#000000"
  | "border-style" => some "solid"
  | "border-width" => some "4px"
  | "padding" => some "10px 25px"
  | "width" => some "100%"
  | _ => none

/-- Model of `mj_divider::NAME`, the divider's element tag. -/
def dividerNAME : String := "mj-divider"

/-- The divider renderer: its element's raw attribute map, the shared
header, and the container width propagated by the parent before `render`. -/
structure DividerRenderer where
  attributes : List (String × String)
  header : Header
  container_width : Option Pixel

/-- The divider as a cascade node: its own attributes, no extra attributes,
tag mj-divider, the divider defaults. -/
def DividerRenderer.node (d : DividerRenderer) : RenderNode :=
  ⟨some d.attributes, none, some dividerNAME, dividerDefaultAttribute⟩

/-- Model of the divider's `attribute`: the generic cascade applied to this
node. -/
def DividerRenderer.attributeOf (d : DividerRenderer) (key : String) : Option String :=
  Render.attributeOf d.node d.header key

/-- Model of `get_outlook_width` (`mj_divider/render.rs`, lines 29–44): the
`unwrap` of the required container width is modelled as `none` (a panic); the
resolved width falls back to 100 percent, a percent p scales the padded-down
container width by p/100, a pixel is taken as is, and anything else yields
the padded-down container width. -/
def DividerRenderer.get_outlook_width (d : DividerRenderer) : Option Pixel :=
  match d.container_width with
  | none => none
  | some container_width =>
    let padding_horizontal := Render.get_padding_horizontal d.node d.header
    let width := (Render.attribute_as_size d.node d.header "width").getD
      (Size.percentOf 100)
    some (match width with
      | Size.percent value =>
        Pixel.new ((container_width.value - padding_horizontal.value) *
          (value.value / 100))
      | Size.pixel value => value
      | _ => Pixel.new (container_width.value - padding_horizontal.value))

/-- Model of the divider's `set_style_p_without_width`: the three `unwrap`
calls on resolved attributes are modelled as `Option` binds (for the divider
the compiled-in defaults make them always succeed). -/
def dividerSetStylePWithoutWidth (d : DividerRenderer) (t : Tag) : Option Tag := do
  let bs ← d.attributeOf "border-style"
  let bw ← d.attributeOf "border-width"
  let bc ← d.attributeOf "border-color"
  pure (((t.add_style "border-top" (bs ++ " " ++ bw ++ " " ++ bc)).add_style
    "font-size" "1px").add_style "margin" "0px auto")

/-- Model of the divider's `set_style_p`. -/
def dividerSetStyleP (d : DividerRenderer) (t : Tag) : Option Tag :=
  (dividerSetStylePWithoutWidth d t).map
    (fun t => t.maybe_add_style "width" (d.attributeOf "width"))

/-- Model of the divider's `set_style_outlook`. -/
def dividerSetStyleOutlook (d : DividerRenderer) (t : Tag) : Option Tag := do
  let base ← dividerSetStylePWithoutWidth d t
  let ow ← d.get_outlook_width
  pure (base.add_style "width" ow.display)

/-- Model of the divider's `render_after`: the vendor-conditional fallback
table; fails (panics in the source) when the container width is absent. -/
def dividerRenderAfter (d : DividerRenderer) : Option String := do
  let styled ← dividerSetStyleOutlook d Tag.table_presentation
  let ow ← d.get_outlook_width
  let table := (styled.add_attribute "align" "center").add_attribute "width"
    ow.display
  let tr := Tag.new "tr"
  let td := ((Tag.new "td").add_style "height" "0").add_style "line-height" "0"
  pure (startConditionalTag ++ table.render_open ++ tr.render_open ++
    td.render_text "&nbsp;" ++ tr.render_close ++ table.render_close ++
    endConditionalTag)

/-- Model of the divider's `render`: the styled p element followed by the
conditional fallback block; a missing container width aborts the whole
render with no output. -/
def dividerRender (d : DividerRenderer) : Option String := do
  let p ← dividerSetStyleP d (Tag.new "p")
  let after ← dividerRenderAfter d
  pure (p.render_text "" ++ after)

/-- A cascade-frame predicate: the four cascade tables and the breakpoint of
the first header agree with those of the second. -/
def preservesCascade (h2 h1 : Header) : Prop :=
  h2.attributes_all = h1.attributes_all ∧
  h2.attributes_class = h1.attributes_class ∧
  h2.attributes_element = h1.attributes_element ∧
  h2.font_families = h1.font_families ∧
  h2.breakpoint = h1.breakpoint

/-- A header built from an empty head section. -/
def hdr0 : Header := Header.new [] [] [] [] none

/-- Divider with container width 600, padding 10px 25px, width 50 percent. -/
def divEx50pct : DividerRenderer :=
  ⟨[("padding", "10px 25px"), ("width", "50%")], hdr0, some (Pixel.new 600)⟩

/-- Divider with container width 600, padding 10px 25px, width 100px. -/
def divEx100px : DividerRenderer :=
  ⟨[("padding", "10px 25px"), ("width", "100px")], hdr0, some (Pixel.new 600)⟩

/-- Divider with container width 600, padding 10px 25px, no width. -/
def divExNoWidth : DividerRenderer :=
  ⟨[("padding", "10px 25px")], hdr0, some (Pixel.new 600)⟩

/-- Divider whose container width was never set. -/
def divNoContainer : DividerRenderer := ⟨[], hdr0, none⟩

/-- A node carrying an unparseable width literal. -/
def brokenNode : RenderNode :=
  ⟨some [("width", "brokenpx")], none, none, fun _ => none⟩

/-- A node with no attributes at any tier. -/
def emptyNode : RenderNode := ⟨none, none, none, fun _ => none⟩

/-- A concrete component render function used to exercise the fragment
dispatcher. -/
def renderOk : RenderOptions → Except Error String :=
  fun _ => Except.ok "rendered"

/-- C1: the resolved attribute value of a node is determined by the first
matching tier in the fixed order own attributes, extra attributes, mj-class
classes in declared order, per-element table, global table, compiled-in
default; when every tier misses, the result is the `none` of the final
`orElse` chain — undefined, not an error and not a value of another tier. -/
theorem attribute_cascade_tiers (n : RenderNode) (h : Header) (key : String) :
    Render.attributeOf n h key =
      (tierOwn n key).orElse (fun _ =>
        (tierExtra n key).orElse (fun _ =>
          (tierClass n h key).orElse (fun _ =>
            (tierElement n h key).orElse (fun _ =>
              (tierAll h key).orElse (fun _ => tierDefault n key))))) := by
  unfold Render.attributeOf tierOwn tierExtra tierClass tierElement tierAll
    tierDefault Option.orElse
  cases n.attributes.bind (fun attrs => lookup attrs key) with
  | some v => rfl
  | none =>
    cases n.extra_attributes.bind (fun attrs => lookup attrs key) with
    | some v => rfl
    | none =>
      cases (n.attributes.bind (fun attrs => lookup attrs "mj-class")).bind
          (fun mjClasses =>
            (((splitSep ' ' mjClasses.data).map trimChars).filterMap
              (fun mjClass => h.attribute_class (String.mk mjClass) key)).head?) with
      | some v => rfl
      | none =>
        cases n.tag.bind (fun tag => h.attribute_element tag key) with
        | some v => rfl
        | none =>
          cases h.attribute_all key with
          | some v => rfl
          | none => rfl

/-- C2: with a set container width cw, the divider's outlook width is
(cw − horizontal padding) · p/100 when the width attribute resolves to a
percent p, the pixel value itself when it resolves to a pixel, and
cw − horizontal padding when it resolves to a raw size; the compiled-in
default for an absent width is 100 percent; concretely, with cw = 600 and
padding 10px 25px, width 50 percent gives 275px, width 100px gives 100px,
and an absent width resolves to 100 percent and gives 550px. -/
theorem divider_outlook_width_correct :
    (∀ (d : DividerRenderer) (cw : Pixel), d.container_width = some cw →
      (∀ p, Render.attribute_as_size d.node d.header "width" =
          some (Size.percent p) →
        d.get_outlook_width = some (Pixel.new ((cw.value -
          (Render.get_padding_horizontal d.node d.header).value) *
            (p.value / 100)))) ∧
      (∀ v, Render.attribute_as_size d.node d.header "width" =
          some (Size.pixel v) →
        d.get_outlook_width = some v) ∧
      (∀ s, Render.attribute_as_size d.node d.header "width" =
          some (Size.raw s) →
        d.get_outlook_width = some (Pixel.new (cw.value -
          (Render.get_padding_horizontal d.node d.header).value)))) ∧
    dividerDefaultAttribute "width" = some "100%" ∧
    divExNoWidth.attributeOf "width" = some "100%" ∧
    divEx50pct.get_outlook_width = some (Pixel.new 275) ∧
    divEx100px.get_outlook_width = some (Pixel.new 100) ∧
    divExNoWidth.get_outlook_width = some (Pixel.new 550) := by
  have general : ∀ (d : DividerRenderer) (cw : Pixel),
      d.container_width = some cw →
      (∀ p, Render.attribute_as_size d.node d.header "width" =
          some (Size.percent p) →
        d.get_outlook_width = some (Pixel.new ((cw.value -
          (Render.get_padding_horizontal d.node d.header).value) *
            (p.value / 100)))) ∧
      (∀ v, Render.attribute_as_size d.node d.header "width" =
          some (Size.pixel v) →
        d.get_outlook_width = some v) ∧
      (∀ s, Render.attribute_as_size d.node d.header "width" =
          some (Size.raw s) →
        d.get_outlook_width = some (Pixel.new (cw.value -
          (Render.get_padding_horizontal d.node d.header).value))) := by
    intro d cw hcw
    refine ⟨fun p hp => ?_, fun v hv => ?_, fun s hs => ?_⟩
    · simp only [DividerRenderer.get_outlook_width, hcw, hp, Option.getD_some]
    · simp only [DividerRenderer.get_outlook_width, hcw, hv, Option.getD_some]
    · simp only [DividerRenderer.get_outlook_width, hcw, hs, Option.getD_some]
  refine ⟨general, rfl, by decide, ?_, ?_, ?_⟩
  · have h := (general divEx50pct (Pixel.new 600) rfl).1 ⟨50⟩ (by decide)
    rw [h]
    have hpad : Render.get_padding_horizontal divEx50pct.node divEx50pct.header
        = Pixel.new (25 + 25) := by
      simp only [Render.get_padding_horizontal]
      rw [show Render.get_padding_left divEx50pct.node divEx50pct.header =
        some (Pixel.new 25) by decide]
      rw [show Render.get_padding_right divEx50pct.node divEx50pct.header =
        some (Pixel.new 25) by decide]
      rfl
    rw [hpad]
    simp only [Option.some.injEq, Pixel.new, Pixel.mk.injEq]
    norm_num
  · exact (general divEx100px (Pixel.new 600) rfl).2.1 ⟨100⟩ (by decide)
  · have h := (general divExNoWidth (Pixel.new 600) rfl).1 ⟨100⟩ (by decide)
    rw [h]
    have hpad : Render.get_padding_horizontal divExNoWidth.node
        divExNoWidth.header = Pixel.new (25 + 25) := by
      simp only [Render.get_padding_horizontal]
      rw [show Render.get_padding_left divExNoWidth.node divExNoWidth.header =
        some (Pixel.new 25) by decide]
      rw [show Render.get_padding_right divExNoWidth.node divExNoWidth.header =
        some (Pixel.new 25) by decide]
      rfl
    rw [hpad]
    simp only [Option.some.injEq, Pixel.new, Pixel.mk.injEq]
    norm_num

/-- Witness for C2: the general percent case applied to the concrete divider
with container width 600, padding 10px 25px and width 50 percent. -/
theorem divider_outlook_width_correct_witness :
    divEx50pct.get_outlook_width = some (Pixel.new (((Pixel.new 600).value -
      (Render.get_padding_horizontal divEx50pct.node
        divEx50pct.header).value) * ((Percent.mk 50).value / 100))) :=
  (divider_outlook_width_correct.1 divEx50pct (Pixel.new 600) rfl).1
    ⟨50⟩ (by decide)

/-- C4: a divider whose container width was never set fails to render: the
unwrap of the missing width (a panic in the source, the failure outcome
here) aborts the render and produces no output. -/
theorem divider_render_requires_container_width (d : DividerRenderer)
    (hcw : d.container_width = none) : dividerRender d = none := by
  have how : d.get_outlook_width = none := by
    simp only [DividerRenderer.get_outlook_width, hcw]
  have hafter : dividerRenderAfter d = none := by
    simp only [dividerRenderAfter, dividerSetStyleOutlook, how, Option.bind]
    cases dividerSetStylePWithoutWidth d Tag.table_presentation <;> rfl
  simp only [dividerRender, hafter, Option.bind]
  cases dividerSetStyleP d (Tag.new "p") <;> rfl

/-- Witness for C4: the concrete divider with no container width renders to
nothing. -/
theorem divider_render_requires_container_width_witness :
    dividerRender divNoContainer = none :=
  divider_render_requires_container_width divNoContainer rfl

/-- C5: when the cascade-resolved attribute string fails to parse as a
pixel, size or spacing, the respective typed accessor returns `none` — the
property is treated as undefined, and no error is produced. -/
theorem attribute_parse_failure_is_undefined (n : RenderNode) (h : Header)
    (name s : String) (ha : Render.attributeOf n h name = some s) :
    (Pixel.tryFrom s = none → Render.attribute_as_pixel n h name = none) ∧
    (Size.tryFrom s = none → Render.attribute_as_size n h name = none) ∧
    (Spacing.tryFrom s = none → Render.attribute_as_spacing n h name = none) := by
  refine ⟨fun hp => ?_, fun hs => ?_, fun hsp => ?_⟩
  · simp only [Render.attribute_as_pixel, ha, Option.some_bind, hp]
  · simp only [Render.attribute_as_size, ha, Option.some_bind, hs]
  · simp only [Render.attribute_as_spacing, ha, Option.some_bind, hsp]

/-- Witness for C5: a node whose width literal parses as none of the three
value types resolves that width, yet every typed accessor yields none. -/
theorem attribute_parse_failure_is_undefined_witness :
    Render.attribute_as_pixel brokenNode hdr0 "width" = none ∧
    Render.attribute_as_size brokenNode hdr0 "width" = none ∧
    Render.attribute_as_spacing brokenNode hdr0 "width" = none := by
  have h := attribute_parse_failure_is_undefined brokenNode hdr0 "width"
    "brokenpx" (by decide)
  exact ⟨h.1 (by decide), h.2.1 (by decide), h.2.2 (by decide)⟩

/-- C6: the fragment dispatcher maps the name main to exactly the full
render, and any other name to an unknown-fragment error carrying that
name. -/
theorem render_fragment_dispatch (render : RenderOptions → Except Error String)
    (opts : RenderOptions) (name : String) :
    render_fragment render "main" opts = render opts ∧
    (name ≠ "main" → render_fragment render name opts =
      Except.error (Error.unknownFragment name)) :=
  ⟨rfl, fun hne => if_neg hne⟩

/-- Witness for C6: dispatching the fragment name other on a concrete
component yields the unknown-fragment error for that name. -/
theorem render_fragment_dispatch_witness :
    render_fragment renderOk "other" RenderOptions.default =
      Except.error (Error.unknownFragment "other") :=
  (render_fragment_dispatch renderOk RenderOptions.default "other").2 (by decide)

/-- C7: every mutating header operation leaves the four cascade tables and
the breakpoint unchanged; only the accumulators and the id counter can
move. -/
theorem header_mutators_preserve_cascade (h : Header) (value cls : String)
    (size : Size) (ov : Option String) :
    preservesCascade (h.add_used_font_family value) h ∧
    preservesCascade (h.add_font_families value) h ∧
    preservesCascade (h.add_media_query cls size) h ∧
    preservesCascade (h.add_style value) h ∧
    preservesCascade (h.maybe_set_lang ov) h ∧
    preservesCascade h.next_id.2 h := by
  have fonts : ∀ (ts : List String) (h0 : Header),
      preservesCascade (ts.foldl Header.add_used_font_family h0) h0 := by
    intro ts
    induction ts with
    | nil => intro h0; exact ⟨rfl, rfl, rfl, rfl, rfl⟩
    | cons t ts ih =>
      intro h0
      exact ih (h0.add_used_font_family t)
  exact ⟨⟨rfl, rfl, rfl, rfl, rfl⟩, fonts (fontFamilyTokens value) h,
    ⟨rfl, rfl, rfl, rfl, rfl⟩, ⟨rfl, rfl, rfl, rfl, rfl⟩,
    ⟨rfl, rfl, rfl, rfl, rfl⟩, ⟨rfl, rfl, rfl, rfl, rfl⟩⟩

/-- C9: the derived box-dimension sums are always defined, substituting zero
for each undefined side; a node with no border or padding attribute at any
cascade tier yields zero for all three sums. -/
theorem box_dimension_sums_total (n : RenderNode) (h : Header) :
    Render.get_border_horizontal n h =
      Pixel.new (((Render.get_border_left n h).map Pixel.value).getD 0 +
        ((Render.get_border_right n h).map Pixel.value).getD 0) ∧
    Render.get_padding_horizontal n h =
      Pixel.new (((Render.get_padding_left n h).map Pixel.value).getD 0 +
        ((Render.get_padding_right n h).map Pixel.value).getD 0) ∧
    Render.get_padding_vertical n h =
      Pixel.new (((Render.get_padding_top n h).map Pixel.value).getD 0 +
        ((Render.get_padding_bottom n h).map Pixel.value).getD 0) ∧
    (Render.attributeOf n h "border-left" = none →
      Render.attributeOf n h "border-right" = none →
      Render.attributeOf n h "border" = none →
      Render.get_border_horizontal n h = Pixel.new 0) ∧
    (Render.attributeOf n h "padding-left" = none →
      Render.attributeOf n h "padding-right" = none →
      Render.attributeOf n h "padding" = none →
      Render.get_padding_horizontal n h = Pixel.new 0) ∧
    (Render.attributeOf n h "padding-top" = none →
      Render.attributeOf n h "padding-bottom" = none →
      Render.attributeOf n h "padding" = none →
      Render.get_padding_vertical n h = Pixel.new 0) := by
  refine ⟨rfl, rfl, rfl, fun h1 h2 h3 => ?_, fun h1 h2 h3 => ?_,
    fun h1 h2 h3 => ?_⟩ <;>
    · simp only [Render.get_border_horizontal, Render.get_border_left,
        Render.get_border_right, Render.get_padding_horizontal,
        Render.get_padding_vertical, Render.get_padding_left,
        Render.get_padding_right, Render.get_padding_top,
        Render.get_padding_bottom, Render.attribute_as_pixel,
        Render.attribute_as_spacing, h1, h2, h3, Option.bind_none,
        Option.orElse, Option.map_none, Option.getD_none]
      show Pixel.new (0 + 0) = Pixel.new 0
      norm_num

/-- Witness for C9: a node with no attributes at all, under an empty header,
has zero horizontal border, horizontal padding and vertical padding. -/
theorem box_dimension_sums_total_witness :
    Render.get_border_horizontal emptyNode hdr0 = Pixel.new 0 ∧
    Render.get_padding_horizontal emptyNode hdr0 = Pixel.new 0 ∧
    Render.get_padding_vertical emptyNode hdr0 = Pixel.new 0 := by
  have h := box_dimension_sums_total emptyNode hdr0
  exact ⟨h.2.2.2.1 rfl rfl rfl, h.2.2.2.2.1 rfl rfl rfl,
    h.2.2.2.2.2 rfl rfl rfl⟩

/-- C10: `maybe_set_lang` overwrites the lang field unconditionally — in
particular `none` clears a previously set language — while the other
`maybe_*` mutators are no-ops on `none` and leave the header intact. -/
theorem maybe_set_lang_overwrites (h : Header) (v : Option String) :
    h.maybe_set_lang v = { h with lang := v } ∧
    (h.maybe_set_lang none).lang = none ∧
    h.maybe_add_style none = h ∧
    h.maybe_add_font_families none = h :=
  ⟨rfl, rfl, rfl, rfl⟩

theorem insertSet_mem {l : List String} {x a : String} :
    a ∈ insertSet l x ↔ a ∈ l ∨ a = x := by
  unfold insertSet
  by_cases h : x ∈ l
  · simp only [if_pos h]
    constructor
    · exact Or.inl
    · rintro (ha | rfl)
      · exact ha
      · exact h
  · simp [if_neg h]

theorem insertSet_nodup {l : List String} {x : String} (h : l.Nodup) :
    (insertSet l x).Nodup := by
  unfold insertSet
  by_cases hx : x ∈ l
  · simpa [if_pos hx] using h
  · simp only [if_neg hx]
    refine (List.nodup_append).mpr ⟨h, List.nodup_singleton x,
      fun a ha hax => ?_⟩
    rw [List.mem_singleton] at hax
    exact hx (hax ▸ ha)

theorem foldl_insertSet_mem : ∀ (ts : List String) (l : List String)
    (a : String), a ∈ ts.foldl insertSet l ↔ a ∈ l ∨ a ∈ ts := by
  intro ts
  induction ts with
  | nil => intro l a; simp
  | cons t ts ih =>
    intro l a
    rw [List.foldl_cons, ih, insertSet_mem]
    simp [or_assoc]

theorem foldl_insertSet_nodup : ∀ (ts : List String) (l : List String),
    l.Nodup → (ts.foldl insertSet l).Nodup := by
  intro ts
  induction ts with
  | nil => intro l h; exact h
  | cons t ts ih => intro l h; exact ih _ (insertSet_nodup h)

theorem foldl_add_used_font_family_used (ts : List String) (h : Header) :
    (ts.foldl Header.add_used_font_family h).used_font_families =
      ts.foldl insertSet h.used_font_families := by
  induction ts generalizing h with
  | nil => rfl
  | cons t ts ih => exact ih (h.add_used_font_family t)

theorem foldl_add_font_families_used (values : List String) (h : Header) :
    (values.foldl Header.add_font_families h).used_font_families =
      (values.flatMap fontFamilyTokens).foldl insertSet h.used_font_families := by
  induction values generalizing h with
  | nil => rfl
  | cons v vs ih =>
    rw [List.foldl_cons, ih, List.flatMap_cons, List.foldl_append]
    rw [show (Header.add_font_families h v).used_font_families =
      (fontFamilyTokens v).foldl insertSet h.used_font_families from
      foldl_add_used_font_family_used (fontFamilyTokens v) h]

/-- C8: `add_font_families` splits its input on commas, trims each token,
drops the empty ones, and inserts the rest into the used-font-families set;
since the accumulator is a set, a name referenced any number of times across
any number of calls appears exactly once afterwards. -/
theorem add_font_families_dedup (h : Header) (value name : String)
    (hnd : h.used_font_families.Nodup) :
    (h.add_font_families value).used_font_families.Nodup ∧
    (name ∈ (h.add_font_families value).used_font_families ↔
      name ∈ h.used_font_families ∨ name ∈ fontFamilyTokens value) ∧
    (name ∈ fontFamilyTokens value →
      List.count name (h.add_font_families value).used_font_families = 1) ∧
    (∀ values : List String,
      (values.foldl Header.add_font_families h).used_font_families.Nodup ∧
      (name ∈ (values.foldl Header.add_font_families h).used_font_families ↔
        name ∈ h.used_font_families ∨ ∃ v ∈ values, name ∈ fontFamilyTokens v) ∧
      ((∃ v ∈ values, name ∈ fontFamilyTokens v) →
        List.count name
          (values.foldl Header.add_font_families h).used_font_families = 1)) := by
  have single := foldl_add_used_font_family_used (fontFamilyTokens value) h
  have nodup1 : (h.add_font_families value).used_font_families.Nodup := by
    rw [Header.add_font_families, single]
    exact foldl_insertSet_nodup _ _ hnd
  have mem1 : name ∈ (h.add_font_families value).used_font_families ↔
      name ∈ h.used_font_families ∨ name ∈ fontFamilyTokens value := by
    rw [Header.add_font_families, single]
    exact foldl_insertSet_mem _ _ name
  refine ⟨nodup1, mem1, fun hmem =>
    List.count_eq_one_of_mem nodup1 (mem1.mpr (Or.inr hmem)), fun values => ?_⟩
  have multi := foldl_add_font_families_used values h
  have nodupM : (values.foldl Header.add_font_families h).used_font_families.Nodup := by
    rw [multi]; exact foldl_insertSet_nodup _ _ hnd
  have memM : name ∈ (values.foldl Header.add_font_families h).used_font_families ↔
      name ∈ h.used_font_families ∨ ∃ v ∈ values, name ∈ fontFamilyTokens v := by
    rw [multi, foldl_insertSet_mem, List.mem_flatMap]
  exact ⟨nodupM, memM, fun hmem =>
    List.count_eq_one_of_mem nodupM (memM.mpr (Or.inr hmem))⟩

/-- Witness for C8: the declaration Lato, Arial added to a fresh header
yields a set containing Lato exactly once. -/
theorem add_font_families_dedup_witness :
    List.count "Lato" (hdr0.add_font_families "Lato, Arial").used_font_families
      = 1 :=
  (add_font_families_dedup hdr0 "Lato, Arial" "Lato" (by decide)).2.2.1
    (by decide)

theorem digitChar_lt {a b : Nat} (hab : a < b) (hb : b < 10) :
    Char.ofNat (48 + a) < Char.ofNat (48 + b) := by
  have ha : a < 10 := lt_trans hab hb
  interval_cases a <;> interval_cases b <;> decide

theorem digitChar_isDigit {a : Nat} (ha : a < 10) :
    (Char.ofNat (48 + a)).isDigit = true := by
  interval_cases a <;> decide

theorem padDigits_length : ∀ (w n : Nat), (padDigits w n).length = w := by
  intro w
  induction w with
  | zero => intro n; rfl
  | succ w ih => intro n; simp [padDigits, ih]

theorem padDigits_isDigit : ∀ (w n : Nat) (c : Char), c ∈ padDigits w n →
    c.isDigit = true := by
  intro w
  induction w with
  | zero => intro n c hc; cases hc
  | succ w ih =>
    intro n c hc
    rcases List.mem_cons.mp hc with rfl | hc
    · exact digitChar_isDigit (Nat.mod_lt _ (by norm_num))
    · exact ih n c hc

theorem digit_mod (k w : Nat) :
    k % 10 ^ (w + 1) / 10 ^ w % 10 = k / 10 ^ w % 10 := by
  rw [pow_succ, Nat.mod_mul_right_div_self]
  exact Nat.mod_mod_of_dvd _ dvd_rfl

theorem padDigits_congr : ∀ (w : Nat) {m n : Nat},
    m % 10 ^ w = n % 10 ^ w → padDigits w m = padDigits w n := by
  intro w
  induction w with
  | zero => intro m n _; rfl
  | succ w ih =>
    intro m n hmn
    unfold padDigits
    congr 1
    · rw [← digit_mod m w, ← digit_mod n w, hmn]
    · apply ih
      rw [← Nat.mod_mod_of_dvd m (pow_dvd_pow 10 (Nat.le_succ w)),
        ← Nat.mod_mod_of_dvd n (pow_dvd_pow 10 (Nat.le_succ w)), hmn]

theorem padDigits_lex_lt : ∀ (w : Nat) {m n : Nat}, m < n → n < 10 ^ w →
    List.Lex (fun a b => a < b) (padDigits w m) (padDigits w n) := by
  intro w
  induction w with
  | zero =>
    intro m n hmn hn
    exact absurd hmn (by omega)
  | succ w ih =>
    intro m n hmn hn
    have hdle : m / 10 ^ w ≤ n / 10 ^ w := Nat.div_le_div_right (le_of_lt hmn)
    have hnd : n / 10 ^ w < 10 := by
      apply Nat.div_lt_of_lt_mul
      rw [← pow_succ]
      exact hn
    rcases lt_or_eq_of_le hdle with hlt | heq
    · unfold padDigits
      apply List.Lex.rel
      rw [Nat.mod_eq_of_lt (lt_trans hlt hnd), Nat.mod_eq_of_lt hnd]
      exact digitChar_lt hlt hnd
    · unfold padDigits
      rw [show Char.ofNat (48 + m / 10 ^ w % 10) =
        Char.ofNat (48 + n / 10 ^ w % 10) by rw [heq]]
      apply List.Lex.cons
      rw [padDigits_congr w (Nat.mod_mod_of_dvd m dvd_rfl).symm,
        padDigits_congr w (Nat.mod_mod_of_dvd n dvd_rfl).symm]
      apply ih
      · have d1 := Nat.div_add_mod m (10 ^ w)
        have d2 := Nat.div_add_mod n (10 ^ w)
        rw [heq] at d1
        omega
      · exact Nat.mod_lt n (pow_pos (by norm_num) w)

theorem zeroPad8_lt_of_lt {m n : Nat} (hmn : m < n) (hn : n < 10 ^ 8) :
    zeroPad8 m < zeroPad8 n :=
  String.lt_iff_toList_lt.mpr (padDigits_lex_lt 8 hmn hn)

theorem idsAfter_formula : ∀ (n : Nat) (h : Header), h.generator < 65536 →
    idsAfter h n =
      (List.range n).map (fun i => zeroPad8 ((h.generator + i) % 65536)) := by
  intro n
  induction n with
  | zero => intro h _; rfl
  | succ n ih =>
    intro h hg
    rw [show idsAfter h (n + 1) = zeroPad8 h.generator ::
      idsAfter { h with generator := (h.generator + 1) % 65536 } n from rfl]
    rw [ih _ (Nat.mod_lt _ (by norm_num))]
    rw [List.range_succ_eq_map, List.map_cons, List.map_map]
    congr 1
    · rw [Nat.add_zero, Nat.mod_eq_of_lt hg]
    · refine List.map_congr_left fun i _ => ?_
      show zeroPad8 (((h.generator + 1) % 65536 + i) % 65536) =
        zeroPad8 ((h.generator + Nat.succ i) % 65536)
      rw [Nat.mod_add_mod]
      congr 1
      omega

/-- C3 (amended): for a freshly constructed header, the strings returned by
the first n ≤ 65536 calls to `next_id` are the zero-padded decimals of
0, 1, …, n−1, hence strictly increasing and pairwise unique, starting at
00000000; and the strings of any number of calls are always exactly eight
decimal digits.  Beyond 65536 calls the u16 counter wraps, so uniqueness is
bounded by 2^16. -/
theorem next_id_sequence (all : List (String × String))
    (cls elt : List (String × List (String × String)))
    (fonts : List (String × String)) (bp : Option String) (n : Nat)
    (hn : n ≤ 65536) :
    (idsAfter (Header.new all cls elt fonts bp) n =
      (List.range n).map zeroPad8 ∧
    List.Pairwise (fun a b => a < b)
      (idsAfter (Header.new all cls elt fonts bp) n) ∧
    (idsAfter (Header.new all cls elt fonts bp) n).Nodup ∧
    (0 < n → (idsAfter (Header.new all cls elt fonts bp) n).head? =
      some "00000000")) ∧
    (∀ (m : Nat), ∀ s ∈ idsAfter (Header.new all cls elt fonts bp) m,
      s.length = 8 ∧ ∀ c ∈ s.data, c.isDigit = true) := by
  have hgen : (Header.new all cls elt fonts bp).generator = 0 := rfl
  have hfor : ∀ m, idsAfter (Header.new all cls elt fonts bp) m =
      (List.range m).map (fun i => zeroPad8 (i % 65536)) := by
    intro m
    rw [idsAfter_formula m _ (by rw [hgen]; norm_num)]
    refine List.map_congr_left fun i _ => ?_
    rw [hgen, Nat.zero_add]
  have heq : idsAfter (Header.new all cls elt fonts bp) n =
      (List.range n).map zeroPad8 := by
    rw [hfor n]
    refine List.map_congr_left fun i hi => ?_
    rw [Nat.mod_eq_of_lt (lt_of_lt_of_le (List.mem_range.mp hi) hn)]
  have hpair : List.Pairwise (fun a b => a < b)
      (idsAfter (Header.new all cls elt fonts bp) n) := by
    rw [heq]
    rw [List.pairwise_map]
    refine (List.pairwise_lt_range n).imp_of_mem fun ha hb hab => ?_
    refine zeroPad8_lt_of_lt hab ?_
    calc _ < n := List.mem_range.mp hb
    _ ≤ 65536 := hn
    _ < 10 ^ 8 := by norm_num
  refine ⟨⟨heq, hpair, hpair.imp (fun hab => ne_of_lt hab), fun hpos => ?_⟩,
    fun m s hs => ?_⟩
  · obtain ⟨k, rfl⟩ := Nat.exists_eq_add_of_lt hpos
    rw [heq, List.head?_map, Nat.zero_add, List.range_succ_eq_map]
    show some (zeroPad8 0) = some "00000000"
    rw [show zeroPad8 0 = "00000000" by decide]
  · rw [hfor m] at hs
    obtain ⟨i, _, rfl⟩ := List.mem_map.mp hs
    refine ⟨?_, fun c hc => padDigits_isDigit 8 _ c hc⟩
    show (padDigits 8 (i % 65536)).length = 8
    exact padDigits_length 8 _

/-- Witness for C3: the amended statement applied to an empty head section
and three calls. -/
theorem next_id_sequence_witness :
    (idsAfter (Header.new [] [] [] [] none) 3 =
      (List.range 3).map zeroPad8 ∧
    List.Pairwise (fun a b => a < b) (idsAfter (Header.new [] [] [] [] none) 3) ∧
    (idsAfter (Header.new [] [] [] [] none) 3).Nodup ∧
    (0 < 3 → (idsAfter (Header.new [] [] [] [] none) 3).head? =
      some "00000000")) ∧
    (∀ (m : Nat), ∀ s ∈ idsAfter (Header.new [] [] [] [] none) m,
      s.length = 8 ∧ ∀ c ∈ s.data, c.isDigit = true) :=
  next_id_sequence [] [] [] [] none 3 (by norm_num)

/-- Counterexample for C3 as stated: the id counter is a u16 and wraps, so
with n = 65537 calls on a freshly constructed header the 1st and the
65537th strings are both 00000000 — the sequence is neither pairwise unique
nor strictly increasing for every n. -/
theorem next_id_wraps_after_65536 :
    (idsAfter (Header.new [] [] [] [] none) 65537).head? = some "00000000" ∧
    (idsAfter (Header.new [] [] [] [] none) 65537)[65536]? =
      some "00000000" ∧
    ¬ (idsAfter (Header.new [] [] [] [] none) 65537).Nodup ∧
    ¬ List.Pairwise (fun a b => a < b)
      (idsAfter (Header.new [] [] [] [] none) 65537) := by
  have hgen : (Header.new [] [] [] [] none).generator = 0 := rfl
  have hfor := idsAfter_formula 65537 (Header.new [] [] [] [] none)
    (by rw [hgen]; norm_num)
  rw [hgen] at hfor
  have h0 : (idsAfter (Header.new [] [] [] [] none) 65537)[0]? =
      some "00000000" := by
    rw [hfor, List.getElem?_map, List.getElem?_range (by norm_num),
      Option.map_some']
    show some (zeroPad8 ((0 + 0) % 65536)) = some "00000000"
    rw [show (0 + 0) % 65536 = 0 by norm_num]
    rw [show zeroPad8 0 = "00000000" by decide]
  have h65536 : (idsAfter (Header.new [] [] [] [] none) 65537)[65536]? =
      some "00000000" := by
    rw [hfor, List.getElem?_map, List.getElem?_range (by norm_num),
      Option.map_some']
    show some (zeroPad8 ((0 + 65536) % 65536)) = some "00000000"
    rw [show (0 + 65536) % 65536 = 0 by norm_num]
    rw [show zeroPad8 0 = "00000000" by decide]
  refine ⟨by rw [List.head?_eq_getElem?]; exact h0, h65536, ?_, ?_⟩
  · intro hnd
    rw [hfor] at hnd
    have hpw := List.pairwise_map.mp hnd
    have hne := List.pairwise_iff_getElem.mp hpw 0 65536
      (by rw [List.length_range]; norm_num)
      (by rw [List.length_range]; norm_num) (by norm_num)
    rw [List.getElem_range, List.getElem_range] at hne
    have hne2 : zeroPad8 ((0 + 0) % 65536) ≠ zeroPad8 ((0 + 65536) % 65536) :=
      hne
    exact hne2 (congrArg zeroPad8 (by norm_num))
  · intro hp
    rw [hfor] at hp
    have hpw := List.pairwise_map.mp hp
    have hlt := List.pairwise_iff_getElem.mp hpw 0 65536
      (by rw [List.length_range]; norm_num)
      (by rw [List.length_range]; norm_num) (by norm_num)
    rw [List.getElem_range, List.getElem_range] at hlt
    have hlt2 : zeroPad8 ((0 + 0) % 65536) < zeroPad8 ((0 + 65536) % 65536) :=
      hlt
    rw [congrArg zeroPad8 (show ((0:ℕ) + 0) % 65536 = (0 + 65536) % 65536
      by norm_num)] at hlt2
    exact lt_irrefl _ hlt2

end Mrml
